import Mathlib

/-!
Verification of the airport-network scoring pipeline of the
ac-connection-comparison Discord bot.

The development shallowly embeds the pipeline's components:

* `calculate_bosP` / `calculate_bos` — the Base Opportunity Score
  (src/utils/scoring.py); Python floats are modelled as real numbers and
  `**` as `Real.rpow`.
* `haversine_distance` — the great-circle distance (src/utils/geo.py).
* `JVal`, `computeCompetition`, `enrich` — the JSON competition data and the
  enrichment stage (src/cogs/network.py, `fetch_competition`); upstream
  numeric fields are modelled as integers (seat counts), and a Python
  `TypeError` escaping the extraction is an `Except.error`.
* `fetch_json` — the TTL cache of src/utils/http.py as a pure state
  transformer over an explicit cache state and clock readings.
* `insertDesc` / `sortDesc` / `rankTop` — the stable descending sort and
  top-15 truncation of the ranking step (src/cogs/network.py lines 313-315).
* `tableLines` / `tableText` / `format_table` — the table renderer and its
  1900-character guard (src/cogs/network.py `_format_table`).
* `TaskPhase` / `SemStep` — the `asyncio.Semaphore(20)` admission gate of the
  enrichment fan-out as a labelled transition system.
-/

namespace AirlineBot

/-- BOS profile parameter bundle (src/utils/scoring.py lines 20-51). -/
structure BosProfile where
  POP_EXP : ℝ
  INCOME_EXP : ℝ
  COMP_SCALE : ℝ
  COMP_EXP : ℝ
  DIST_MU : ℝ
  DIST_SIGMA : ℝ
  DIST_FLOOR : ℝ
  DIST_PEAK : ℝ

/-- The `"balanced"` profile (src/utils/scoring.py lines 21-30). -/
noncomputable def balanced : BosProfile :=
  ⟨0.85, 1.25, 25000, 1.2, 1500, 1200, 0.25, 1.8⟩

/-- The `"growth"` profile (src/utils/scoring.py lines 31-40). -/
noncomputable def growth : BosProfile :=
  ⟨0.9, 1.3, 25000, 1.0, 1400, 1200, 0.3, 2.0⟩

/-- The `"conservative"` profile (src/utils/scoring.py lines 41-50). -/
noncomputable def conservative : BosProfile :=
  ⟨0.8, 1.2, 25000, 1.4, 1600, 1200, 0.25, 1.6⟩

/-- The profile active in a default process: the `BOS_PROFILE` environment
variable defaults to `"balanced"`, and an unknown name also falls back to
`"balanced"` (src/utils/scoring.py lines 17, 54-58). -/
noncomputable def ACTIVE_PROFILE : BosProfile := balanced

/-- Shallow embedding of `calculate_bos` (src/utils/scoring.py lines 71-132),
parameterised by the profile whose constants the module reads at import time.
The early `return None` for non-positive population or income is the outer
`if`; the in-place clamp `if competition < 0: competition = 0` is the inner
conditional. -/
noncomputable def calculate_bosP (pr : BosProfile)
    (population income_level competition distance openness : ℝ) : Option ℝ :=
  if population ≤ 0 ∨ income_level ≤ 0 then none
  else
    let economics := population ^ pr.POP_EXP * income_level ^ pr.INCOME_EXP
    let comp_clamped := if competition < 0 then 0 else competition
    let comp_ratio := comp_clamped / pr.COMP_SCALE
    let comp_pen := (1 + Real.log (1 + comp_ratio)) ^ pr.COMP_EXP
    let distance_variance := pr.DIST_SIGMA ^ (2 : ℕ)
    let gaussian := Real.exp (-((distance - pr.DIST_MU) ^ (2 : ℕ)) / (2 * distance_variance))
    let dist_weight := pr.DIST_FLOOR + (pr.DIST_PEAK - pr.DIST_FLOOR) * gaussian
    let openness_clamped := max 0 (min 10 openness)
    let openness_weight := 0.9 + 0.02 * openness_clamped
    some (economics / comp_pen * dist_weight * openness_weight)

/-- `calculate_bos` with the active profile's module-level constants.  The
Python signature defaults `openness` to `5.0`; call sites that omit it are
modelled by passing `5` explicitly. -/
noncomputable def calculate_bos
    (population income_level competition distance openness : ℝ) : Option ℝ :=
  calculate_bosP ACTIVE_PROFILE population income_level competition distance openness

/-- `math.radians` — degrees to radians. -/
noncomputable def radians (x : ℝ) : ℝ := x * (Real.pi / 180)

/-- Shallow embedding of `haversine_distance` (src/utils/geo.py lines 7-42). -/
noncomputable def haversine_distance (lat1 lon1 lat2 lon2 : ℝ) : ℝ :=
  6371 * (2 * Real.arcsin (Real.sqrt
    (Real.sin ((radians lat2 - radians lat1) / 2) ^ 2 +
      Real.cos (radians lat1) * Real.cos (radians lat2) *
        Real.sin ((radians lon2 - radians lon1) / 2) ^ 2)))

/-- The fields of one scored candidate as the orchestrator assembles them
(src/cogs/network.py lines 264-288): population, income, competition and
distance feed the score; the country openness is carried along but, at the
call on line 275, never passed to `calculate_bos`. -/
structure ScoredInput where
  population : ℝ
  income : ℝ
  competition : ℝ
  distance : ℝ
  openness : ℤ

/-- The orchestrator's scoring call (src/cogs/network.py line 275):
`calculate_bos(population, income_level, competition, distance)` — the
openness argument is omitted, so the Python default `5.0` applies. -/
noncomputable def pipelineScore (s : ScoredInput) : Option ℝ :=
  calculate_bos s.population s.income s.competition s.distance 5

/-- JSON-like values served by the upstream API.  Numeric fields are modelled
as integers (the pipeline reads seat counts); objects are association lists. -/
inductive JVal where
  | num (n : ℤ)
  | str (s : String)
  | obj (fields : List (String × JVal))
  | arr (elems : List JVal)
  | null

/-- Python `dict.get(key, default)` on the association-list object model. -/
def jget (fields : List (String × JVal)) (key : String) (dflt : JVal) : JVal :=
  match fields.find? (fun kv => kv.1 == key) with
  | some kv => kv.2
  | none => dflt

/-- Python `+` on the JSON model: numbers add, strings and lists concatenate,
and any other combination raises `TypeError`, modelled as `Except.error`. -/
def pyAdd : JVal → JVal → Except Unit JVal
  | .num a, .num b => .ok (.num (a + b))
  | .str a, .str b => .ok (.str (a ++ b))
  | .arr a, .arr b => .ok (.arr (a ++ b))
  | _, _ => .error ()

/-- The raw capacity field of a link record, trying `capacity`, then
`assignedCapacity`, then `totalCapacity`, defaulting to 0
(src/cogs/network.py line 207). -/
def capField (f : List (String × JVal)) : JVal :=
  jget f "capacity" (jget f "assignedCapacity" (jget f "totalCapacity" (.num 0)))

/-- Resolution of a nested capacity breakdown:
`cap.get("total", cap.get("economy", 0)) + cap.get("business", 0) +
cap.get("first", 0)` (src/cogs/network.py line 210); a non-dict capacity is
returned as is. -/
def resolveCap : JVal → Except Unit JVal
  | .obj g =>
    match pyAdd (jget g "total" (jget g "economy" (.num 0))) (jget g "business" (.num 0)) with
    | .ok tb => pyAdd tb (jget g "first" (.num 0))
    | .error e => .error e
  | v => .ok v

/-- Contribution of one link record to the competition sum: non-dict links are
skipped, a resolved non-numeric capacity contributes 0, a numeric one its
value (src/cogs/network.py lines 204-214). -/
def linkContrib : JVal → Except Unit ℤ
  | .obj f =>
    match resolveCap (capField f) with
    | .ok (.num q) => .ok q
    | .ok _ => .ok 0
    | .error e => .error e
  | _ => .ok 0

/-- The `competition += cap` loop over a list of link records, threading the
accumulator and propagating a raised `TypeError`. -/
def sumCaps : ℤ → List JVal → Except Unit ℤ
  | acc, [] => .ok acc
  | acc, link :: rest =>
    match linkContrib link with
    | .ok q => sumCaps (acc + q) rest
    | .error e => .error e

/-- `fetch_competition`'s competition computation over the fetched response
(src/cogs/network.py lines 192-236): `none` models the failure signal from
`fetch_airport_links` (and JSON `null`), a list response is summed directly, a
dict response is summed over its `links`/`data` entry when that is a list,
and any other shape yields 0. -/
def computeCompetition : Option JVal → Except Unit ℤ
  | none => .ok 0
  | some (.arr links) => sumCaps 0 links
  | some (.obj f) =>
    match jget f "links" (jget f "data" (.arr [])) with
    | .arr links => sumCaps 0 links
    | _ => .ok 0
  | some _ => .ok 0

/-- The link records a response contributes to the sum. -/
def linksOf : Option JVal → List JVal
  | none => []
  | some (.arr links) => links
  | some (.obj f) =>
    match jget f "links" (jget f "data" (.arr [])) with
    | .arr links => links
    | _ => []
  | some _ => []

/-- One candidate's enrichment (`fetch_competition`, src/cogs/network.py
lines 182-239): the payload `p` carries the candidate's untouched fields, and
the fetched response decides the annotated `competitionSeats`. -/
def annotateE {P : Type} (response : Option JVal) (p : P) : Except Unit (P × ℤ) :=
  (computeCompetition response).map (fun q => (p, q))

/-- The Phase-B fan-out/fan-in (`asyncio.gather` over `fetch_competition`,
src/cogs/network.py lines 242-244): each candidate is annotated from its own
response, in input order; an exception escaping any single task fails the
whole batch. -/
def enrich {P : Type} : List (Option JVal × P) → Except Unit (List (P × ℤ))
  | [] => .ok []
  | (r, p) :: rest =>
    match annotateE r p with
    | .ok e => (enrich rest).map (fun es => e :: es)
    | .error err => .error err

/-- Cache TTL in seconds (src/utils/http.py line 27). -/
def CACHE_TTL : ℚ := 600

/-- One entry of the module-level `_cache` dict: the parsed payload and the
`time.time()` at which it was stored (src/utils/http.py lines 121-124). -/
structure CacheEntry where
  data : JVal
  timestamp : ℚ

/-- The observable outcome of one `fetch_json` call: what it returned, the
cache state it left behind, and whether it issued a network request. -/
structure FetchOut where
  result : Option JVal
  cache : String → Option CacheEntry
  networkCalled : Bool

/-- One call of `HTTPClient.fetch_json` (src/utils/http.py lines 59-139) as a
pure state transformer.  `cache` is the module-level `_cache`; `now` is the
`time.time()` read at the cache-age check and `later` the one at the cache
write; `net` is the network's answer for this call (`none` models a timeout,
an exception, or a non-200 status — all of which return `None` without
touching the cache). -/
def fetch_json (cache : String → Option CacheEntry) (endpoint : String)
    (use_cache : Bool) (cache_key : Option String) (now later : ℚ)
    (net : Option JVal) : FetchOut :=
  let key := cache_key.getD endpoint
  let hit : Option JVal :=
    if use_cache then
      match cache key with
      | some e => if now - e.timestamp < CACHE_TTL then some e.data else none
      | none => none
    else none
  match hit with
  | some d => ⟨some d, cache, false⟩
  | none =>
    match net with
    | some d =>
      ⟨some d,
        (if use_cache then fun k => if k = key then some ⟨d, later⟩ else cache k else cache),
        true⟩
    | none => ⟨none, cache, true⟩

/-- Header line of `_format_table` (src/cogs/network.py lines 350-353). -/
def tableHeader : String :=
  "Rank | IATA | Name                   | CC(Open) | Dist(km) | Pop     | Income | CompSeats | BOS"

/-- Separator: a dash per header character (src/cogs/network.py line 354). -/
def tableSeparator : String := String.mk (List.replicate tableHeader.length '-')

/-- The lines of the rendered table: header, separator, then one formatted row
per ranked candidate, numbered from 1 (src/cogs/network.py lines 349-374).
`fmtRow` abstracts the Python f-string rendering of one data row (the float
format specifiers are not modelled; the guard below is proved for every row
renderer). -/
def tableLines {C : Type} (fmtRow : ℕ → C → String) (rows : List C) : List String :=
  tableHeader :: tableSeparator :: (rows.enum.map fun pr => fmtRow (pr.1 + 1) pr.2)

/-- The joined table text, `"\n".join(lines)` (src/cogs/network.py line 376). -/
def tableText {C : Type} (fmtRow : ℕ → C → String) (rows : List C) : String :=
  String.intercalate "\n" (tableLines fmtRow rows)

/-- `_format_table` (src/cogs/network.py lines 338-383): the joined text, with
the 1900-character hard truncation and trailing ellipsis marker
(`table[:1900] + "..."`) when the text is longer than 1900 characters. -/
def format_table {C : Type} (fmtRow : ℕ → C → String) (rows : List C) : String :=
  let table := tableText fmtRow rows
  if table.length > 1900 then String.mk (table.data.take 1900) ++ "..." else table

/-- Stable insertion into a descending-sorted list: the inserted element,
which stands earlier in the input than everything already inserted, passes
over strictly larger keys and stops before the first key that is not strictly
larger, hence before any equal key. -/
def insertDesc {C K : Type} [LinearOrder K] (key : C → K) (x : C) : List C → List C
  | [] => [x]
  | y :: ys => if key x < key y then y :: insertDesc key x ys else x :: y :: ys

/-- The stable descending sort
`scored_airports.sort(key=lambda x: x["bos"], reverse=True)`
(src/cogs/network.py line 314), processing the input left to right. -/
def sortDesc {C K : Type} [LinearOrder K] (key : C → K) : List C → List C
  | [] => []
  | x :: xs => insertDesc key x (sortDesc key xs)

/-- The ranking step: stable descending sort, then `[:15]`
(src/cogs/network.py lines 313-315). -/
def rankTop {C K : Type} [LinearOrder K] (key : C → K) (l : List C) : List C :=
  (sortDesc key l).take 15

/-- Phase of one enrichment task of a run: before the gate, holding a gate
slot with its detail fetch outstanding, or finished.  The `async with
self.semaphore` block (src/cogs/network.py lines 188-190) wraps the whole
fetch, so a task's fetch is outstanding exactly while it holds a slot. -/
inductive TaskPhase where
  | idle
  | fetching
  | done
deriving DecidableEq

/-- Number of detail fetches concurrently outstanding: the tasks holding the
gate. -/
def inFlight (s : Multiset TaskPhase) : ℕ := Multiset.count TaskPhase.fetching s

/-- Semaphore-mediated interleaving of the enrichment tasks
(`asyncio.Semaphore(20)`, src/cogs/network.py lines 29-30): an idle task may
enter the gate only when fewer than 20 slots are taken — otherwise it waits —
and a fetching task may finish, releasing its slot. -/
inductive SemStep : Multiset TaskPhase → Multiset TaskPhase → Prop where
  | acquire (t : Multiset TaskPhase) :
      inFlight (TaskPhase.idle ::ₘ t) < 20 →
      SemStep (TaskPhase.idle ::ₘ t) (TaskPhase.fetching ::ₘ t)
  | release (t : Multiset TaskPhase) :
      SemStep (TaskPhase.fetching ::ₘ t) (TaskPhase.done ::ₘ t)

/-- The in-place negative-competition clamp equals `max 0 c`. -/
lemma clamp_eq_max (c : ℝ) : (if c < 0 then (0 : ℝ) else c) = max 0 c := by
  rcases lt_or_le c 0 with h | h
  · rw [if_pos h]
    exact (max_eq_left h.le).symm
  · rw [if_neg (not_lt.mpr h), max_eq_right h]

/-- Closed form of `calculate_bosP`: `none` exactly on non-positive population
or income, the spec's formula otherwise. -/
lemma calculate_bosP_eq (pr : BosProfile) (p i c d o : ℝ) :
    calculate_bosP pr p i c d o =
      if p ≤ 0 ∨ i ≤ 0 then none
      else some (p ^ pr.POP_EXP * i ^ pr.INCOME_EXP /
          (1 + Real.log (1 + max 0 c / pr.COMP_SCALE)) ^ pr.COMP_EXP *
          (pr.DIST_FLOOR + (pr.DIST_PEAK - pr.DIST_FLOOR) *
            Real.exp (-((d - pr.DIST_MU) ^ (2 : ℕ)) / (2 * pr.DIST_SIGMA ^ (2 : ℕ)))) *
          (0.9 + 0.02 * max 0 (min 10 o))) := by
  unfold calculate_bosP
  rw [clamp_eq_max]

/-- Positive-inputs case of `calculate_bosP_eq`. -/
lemma calculate_bosP_pos (pr : BosProfile) (p i c d o : ℝ) (hp : 0 < p) (hi : 0 < i) :
    calculate_bosP pr p i c d o =
      some (p ^ pr.POP_EXP * i ^ pr.INCOME_EXP /
          (1 + Real.log (1 + max 0 c / pr.COMP_SCALE)) ^ pr.COMP_EXP *
          (pr.DIST_FLOOR + (pr.DIST_PEAK - pr.DIST_FLOOR) *
            Real.exp (-((d - pr.DIST_MU) ^ (2 : ℕ)) / (2 * pr.DIST_SIGMA ^ (2 : ℕ)))) *
          (0.9 + 0.02 * max 0 (min 10 o))) := by
  rw [calculate_bosP_eq, if_neg]
  push_neg
  exact ⟨hp, hi⟩

/-- C1: `calculate_bos` returns `none` exactly when population ≤ 0 or
income ≤ 0, and otherwise returns
`(p^POP_EXP * i^INCOME_EXP) / (1 + ln(1 + max(0,c)/COMP_SCALE))^COMP_EXP`
times the Gaussian distance weight `DIST_FLOOR + (DIST_PEAK - DIST_FLOOR) *
exp(-(d - DIST_MU)^2 / (2*DIST_SIGMA^2))` times the openness weight
`0.9 + 0.02 * clamp(o, 0, 10)`, with the parameters of the active profile
(shown for an arbitrary profile, hence in particular for `ACTIVE_PROFILE`). -/
theorem c1_calculate_bos_formula (pr : BosProfile) (p i c d o : ℝ) :
    calculate_bosP pr p i c d o =
      if p ≤ 0 ∨ i ≤ 0 then none
      else some (p ^ pr.POP_EXP * i ^ pr.INCOME_EXP /
          (1 + Real.log (1 + max 0 c / pr.COMP_SCALE)) ^ pr.COMP_EXP *
          (pr.DIST_FLOOR + (pr.DIST_PEAK - pr.DIST_FLOOR) *
            Real.exp (-((d - pr.DIST_MU) ^ (2 : ℕ)) / (2 * pr.DIST_SIGMA ^ (2 : ℕ)))) *
          (0.9 + 0.02 * max 0 (min 10 o))) :=
  calculate_bosP_eq pr p i c d o

/-- C10: the haversine distance is symmetric in its two endpoints, and is zero
on identical points. -/
theorem c10_distance_symm_zero :
    (∀ lat1 lon1 lat2 lon2 : ℝ,
      haversine_distance lat1 lon1 lat2 lon2 = haversine_distance lat2 lon2 lat1 lon1) ∧
    (∀ lat lon : ℝ, haversine_distance lat lon lat lon = 0) := by
  constructor
  · intro a b c d
    have hs : ∀ u v : ℝ, Real.sin ((u - v) / 2) ^ 2 = Real.sin ((v - u) / 2) ^ 2 := by
      intro u v
      rw [show (u - v) / 2 = -((v - u) / 2) by ring, Real.sin_neg]
      ring
    unfold haversine_distance
    rw [hs (radians c) (radians a), hs (radians d) (radians b),
      mul_comm (Real.cos (radians a)) (Real.cos (radians c))]
  · intro lat lon
    simp [haversine_distance]

/-- Clamping the default openness 5 is the identity. -/
lemma clamp_five : max (0 : ℝ) (min 10 5) = 5 := by
  rw [min_eq_right (by norm_num : (5 : ℝ) ≤ 10), max_eq_right (by norm_num : (0 : ℝ) ≤ 5)]

/-- C6: the orchestrator's scoring call omits the openness argument, so every
candidate is scored with the Python default 5.0, whose openness weight is
exactly 1; consequently two candidates agreeing on population, income,
competition and distance receive equal scores however their country openness
differs. -/
theorem c6_openness_never_scored (s t : ScoredInput)
    (hp : s.population = t.population) (hi : s.income = t.income)
    (hc : s.competition = t.competition) (hd : s.distance = t.distance) :
    pipelineScore s = pipelineScore t ∧
    (∀ p i c d : ℝ, 0 < p → 0 < i →
      calculate_bos p i c d 5 =
        some (p ^ ACTIVE_PROFILE.POP_EXP * i ^ ACTIVE_PROFILE.INCOME_EXP /
            (1 + Real.log (1 + max 0 c / ACTIVE_PROFILE.COMP_SCALE)) ^ ACTIVE_PROFILE.COMP_EXP *
            (ACTIVE_PROFILE.DIST_FLOOR + (ACTIVE_PROFILE.DIST_PEAK - ACTIVE_PROFILE.DIST_FLOOR) *
              Real.exp (-((d - ACTIVE_PROFILE.DIST_MU) ^ (2 : ℕ)) /
                (2 * ACTIVE_PROFILE.DIST_SIGMA ^ (2 : ℕ)))))) := by
  constructor
  · unfold pipelineScore
    rw [hp, hi, hc, hd]
  · intro p i c d hp' hi'
    unfold calculate_bos
    rw [calculate_bosP_pos _ _ _ _ _ _ hp' hi', clamp_five]
    have h1 : (0.9 + 0.02 * (5 : ℝ)) = 1 := by norm_num
    rw [h1, mul_one]

theorem c6_witness :
    pipelineScore ⟨1, 1, 0, 1500, 3⟩ = pipelineScore ⟨1, 1, 0, 1500, 9⟩ ∧
    calculate_bos 1 1 0 1500 5 =
      some ((1 : ℝ) ^ ACTIVE_PROFILE.POP_EXP * (1 : ℝ) ^ ACTIVE_PROFILE.INCOME_EXP /
          (1 + Real.log (1 + max 0 (0 : ℝ) / ACTIVE_PROFILE.COMP_SCALE)) ^
            ACTIVE_PROFILE.COMP_EXP *
          (ACTIVE_PROFILE.DIST_FLOOR + (ACTIVE_PROFILE.DIST_PEAK - ACTIVE_PROFILE.DIST_FLOOR) *
            Real.exp (-(((1500 : ℝ) - ACTIVE_PROFILE.DIST_MU) ^ (2 : ℕ)) /
              (2 * ACTIVE_PROFILE.DIST_SIGMA ^ (2 : ℕ))))) :=
  ⟨(c6_openness_never_scored ⟨1, 1, 0, 1500, 3⟩ ⟨1, 1, 0, 1500, 9⟩ rfl rfl rfl rfl).1,
    (c6_openness_never_scored ⟨1, 1, 0, 1500, 3⟩ ⟨1, 1, 0, 1500, 9⟩ rfl rfl rfl rfl).2
      1 1 0 1500 one_pos one_pos⟩

/-- Strict antitonicity of the scored formula in the competition argument on
the nonnegative domain, for any profile with positive scale, exponent and
distance floor. -/
lemma bos_strict_anti (pr : BosProfile) (hS : 0 < pr.COMP_SCALE) (hE : 0 < pr.COMP_EXP)
    (hF : 0 < pr.DIST_FLOOR) (hFP : pr.DIST_FLOOR ≤ pr.DIST_PEAK)
    (p i d o c₁ c₂ : ℝ) (hp : 0 < p) (hi : 0 < i) (hc₁ : 0 ≤ c₁) (hlt : c₁ < c₂) :
    p ^ pr.POP_EXP * i ^ pr.INCOME_EXP /
        (1 + Real.log (1 + max 0 c₂ / pr.COMP_SCALE)) ^ pr.COMP_EXP *
        (pr.DIST_FLOOR + (pr.DIST_PEAK - pr.DIST_FLOOR) *
          Real.exp (-((d - pr.DIST_MU) ^ (2 : ℕ)) / (2 * pr.DIST_SIGMA ^ (2 : ℕ)))) *
        (0.9 + 0.02 * max 0 (min 10 o)) <
      p ^ pr.POP_EXP * i ^ pr.INCOME_EXP /
        (1 + Real.log (1 + max 0 c₁ / pr.COMP_SCALE)) ^ pr.COMP_EXP *
        (pr.DIST_FLOOR + (pr.DIST_PEAK - pr.DIST_FLOOR) *
          Real.exp (-((d - pr.DIST_MU) ^ (2 : ℕ)) / (2 * pr.DIST_SIGMA ^ (2 : ℕ)))) *
        (0.9 + 0.02 * max 0 (min 10 o)) := by
  rw [max_eq_right hc₁, max_eq_right (hc₁.trans hlt.le)]
  have hEpos : 0 < p ^ pr.POP_EXP * i ^ pr.INCOME_EXP :=
    mul_pos (Real.rpow_pos_of_pos hp _) (Real.rpow_pos_of_pos hi _)
  have hr : c₁ / pr.COMP_SCALE < c₂ / pr.COMP_SCALE := by
    apply div_lt_div_of_pos_right hlt hS
  have hr₁ : 0 ≤ c₁ / pr.COMP_SCALE := div_nonneg hc₁ hS.le
  have hlog : Real.log (1 + c₁ / pr.COMP_SCALE) < Real.log (1 + c₂ / pr.COMP_SCALE) :=
    Real.log_lt_log (by linarith) (by linarith)
  have hlog₁ : 0 ≤ Real.log (1 + c₁ / pr.COMP_SCALE) := Real.log_nonneg (by linarith)
  have hpen : (1 + Real.log (1 + c₁ / pr.COMP_SCALE)) ^ pr.COMP_EXP <
      (1 + Real.log (1 + c₂ / pr.COMP_SCALE)) ^ pr.COMP_EXP :=
    Real.rpow_lt_rpow (by linarith) (by linarith) hE
  have hpen₁ : 0 < (1 + Real.log (1 + c₁ / pr.COMP_SCALE)) ^ pr.COMP_EXP :=
    Real.rpow_pos_of_pos (by linarith) _
  have hdiv : p ^ pr.POP_EXP * i ^ pr.INCOME_EXP /
        (1 + Real.log (1 + c₂ / pr.COMP_SCALE)) ^ pr.COMP_EXP <
      p ^ pr.POP_EXP * i ^ pr.INCOME_EXP /
        (1 + Real.log (1 + c₁ / pr.COMP_SCALE)) ^ pr.COMP_EXP :=
    div_lt_div_of_pos_left hEpos hpen₁ hpen
  have hW : 0 < pr.DIST_FLOOR + (pr.DIST_PEAK - pr.DIST_FLOOR) *
      Real.exp (-((d - pr.DIST_MU) ^ (2 : ℕ)) / (2 * pr.DIST_SIGMA ^ (2 : ℕ))) :=
    add_pos_of_pos_of_nonneg hF
      (mul_nonneg (by linarith) (Real.exp_pos _).le)
  have hO : 0 < 0.9 + 0.02 * max 0 (min 10 o) := by
    have h0 : (0 : ℝ) ≤ max 0 (min 10 o) := le_max_left _ _
    have h1 : (0 : ℝ) ≤ 0.02 * max 0 (min 10 o) := mul_nonneg (by norm_num) h0
    linarith
  exact mul_lt_mul_of_pos_right (mul_lt_mul_of_pos_right hdiv hW) hO

/-- C7 (amended): for fixed positive population and income and any distance
and openness, the score returned by `calculate_bos` is strictly decreasing in
the competition argument over the nonnegative competition values.  (Over all
real values the claim fails: negative competition is clamped to zero, see the
counterexample theorem.) -/
theorem c7_score_strict_anti_on_nonneg (p i d o c₁ c₂ b₁ b₂ : ℝ)
    (hp : 0 < p) (hi : 0 < i) (hc₁ : 0 ≤ c₁) (hlt : c₁ < c₂)
    (h₁ : calculate_bos p i c₁ d o = some b₁)
    (h₂ : calculate_bos p i c₂ d o = some b₂) : b₂ < b₁ := by
  unfold calculate_bos at h₁ h₂
  rw [calculate_bosP_pos _ _ _ _ _ _ hp hi] at h₁ h₂
  rw [← Option.some.inj h₁, ← Option.some.inj h₂]
  exact bos_strict_anti ACTIVE_PROFILE
    (by norm_num [ACTIVE_PROFILE, balanced]) (by norm_num [ACTIVE_PROFILE, balanced])
    (by norm_num [ACTIVE_PROFILE, balanced]) (by norm_num [ACTIVE_PROFILE, balanced])
    p i d o c₁ c₂ hp hi hc₁ hlt

/-- The negative-competition clamp collapses all nonpositive competition
values to the score at zero competition. -/
lemma bos_clamp_nonpos (pr : BosProfile) (p i d o c : ℝ) (hc : c ≤ 0) :
    calculate_bosP pr p i c d o = calculate_bosP pr p i 0 d o := by
  rw [calculate_bosP_eq, calculate_bosP_eq, max_eq_left hc, max_self]

/-- C7, counterexample to the unrestricted claim: the scores at competition
−2 and −1 coincide although −2 < −1, so the score is not strictly decreasing
over all competition values. -/
theorem c7_cex_negative_competition :
    calculate_bos 1 1 (-2) 1500 5 = calculate_bos 1 1 (-1) 1500 5 ∧ ((-2 : ℝ) < -1) :=
  ⟨(bos_clamp_nonpos ACTIVE_PROFILE 1 1 1500 5 (-2) (by norm_num)).trans
      (bos_clamp_nonpos ACTIVE_PROFILE 1 1 1500 5 (-1) (by norm_num)).symm,
    by norm_num⟩

/-- Concrete evaluation: at zero competition, unit population and income and
the profile's peak distance, the balanced-profile score is 1.8. -/
lemma bos_at_zero : calculate_bos 1 1 0 1500 5 = some 1.8 := by
  unfold calculate_bos
  rw [calculate_bosP_pos _ _ _ _ _ _ one_pos one_pos, clamp_five]
  norm_num [ACTIVE_PROFILE, balanced, Real.one_rpow, Real.log_one, Real.exp_zero]

/-- Concrete evaluation: at competition `25000 * (e - 1)` the balanced-profile
competition penalty is `2 ^ 1.2`. -/
lemma bos_at_e : calculate_bos 1 1 (25000 * (Real.exp 1 - 1)) 1500 5 =
    some (1.8 / 2 ^ (1.2 : ℝ)) := by
  have he : (1 : ℝ) ≤ Real.exp 1 - 1 := by nlinarith [Real.add_one_le_exp (1 : ℝ)]
  unfold calculate_bos
  rw [calculate_bosP_pos _ _ _ _ _ _ one_pos one_pos, clamp_five]
  have hmax : max (0 : ℝ) (25000 * (Real.exp 1 - 1)) = 25000 * (Real.exp 1 - 1) :=
    max_eq_right (by nlinarith)
  have hdiv : (25000 : ℝ) * (Real.exp 1 - 1) / 25000 = Real.exp 1 - 1 :=
    mul_div_cancel_left₀ _ (by norm_num)
  have hsum : (1 : ℝ) + (Real.exp 1 - 1) = Real.exp 1 := by ring
  rw [show ACTIVE_PROFILE = balanced from rfl]
  simp only [balanced]
  rw [hmax, hdiv, hsum, Real.log_exp]
  norm_num [Real.one_rpow, Real.exp_zero]
  ring

theorem c7_witness :
    calculate_bos 1 1 0 1500 5 = some 1.8 ∧
    calculate_bos 1 1 (25000 * (Real.exp 1 - 1)) 1500 5 = some (1.8 / 2 ^ (1.2 : ℝ)) ∧
    (1.8 : ℝ) / 2 ^ (1.2 : ℝ) < 1.8 :=
  ⟨bos_at_zero, bos_at_e,
    c7_score_strict_anti_on_nonneg 1 1 1500 5 0 (25000 * (Real.exp 1 - 1)) 1.8
      (1.8 / 2 ^ (1.2 : ℝ)) one_pos one_pos le_rfl
      (by nlinarith [Real.add_one_le_exp (1 : ℝ)]) bos_at_zero bos_at_e⟩

lemma computeCompetition_eq_sum (r : Option JVal) :
    computeCompetition r = sumCaps 0 (linksOf r) := by
  match r with
  | none => rfl
  | some (.num n) => rfl
  | some (.str s) => rfl
  | some (.null) => rfl
  | some (.arr links) => rfl
  | some (.obj f) =>
    show (match jget f "links" (jget f "data" (.arr [])) with
      | .arr links => sumCaps 0 links
      | _ => Except.ok 0) =
      sumCaps 0 (match jget f "links" (jget f "data" (.arr [])) with
      | .arr links => links
      | _ => [])
    cases jget f "links" (jget f "data" (.arr [])) <;> rfl

/-- A failed (or null) link fetch is annotated with zero competition. -/
lemma annotateE_none {P : Type} (p : P) : annotateE none p = .ok (p, 0) := rfl

/-- When every candidate's own annotation succeeds, the batch succeeds and
returns exactly the per-candidate annotations, in order. -/
lemma enrich_ok_of_forall {P : Type} (pairs : List (Option JVal × P))
    (h : ∀ i (hi : i < pairs.length),
      (annotateE (pairs.get ⟨i, hi⟩).1 (pairs.get ⟨i, hi⟩).2).isOk = true) :
    ∃ out, enrich pairs = .ok out ∧ out.length = pairs.length ∧
      ∀ i (hi : i < pairs.length) (hi' : i < out.length),
        annotateE (pairs.get ⟨i, hi⟩).1 (pairs.get ⟨i, hi⟩).2 = .ok (out.get ⟨i, hi'⟩) := by
  induction pairs with
  | nil => exact ⟨[], rfl, rfl, fun i hi => absurd hi (by simp)⟩
  | cons hd tl ih =>
    obtain ⟨r, p⟩ := hd
    have h0 : (annotateE r p).isOk = true := h 0 (by simp)
    obtain ⟨e, he⟩ : ∃ e, annotateE r p = .ok e := by
      cases hae : annotateE r p with
      | ok e => exact ⟨e, rfl⟩
      | error err => rw [hae] at h0; exact absurd h0 (by simp [Except.isOk, Except.toBool])
    obtain ⟨out, hout, hlen, hidx⟩ := ih (fun i hi => h (i + 1) (by simpa using hi))
    refine ⟨e :: out, ?_, by simpa using hlen, ?_⟩
    · show (match annotateE r p with
        | .ok e => (enrich tl).map (fun es => e :: es)
        | .error err => Except.error err) = _
      rw [he, hout]
      rfl
    · intro i hi hi'
      match i with
      | 0 => simpa using he
      | Nat.succ j =>
        have hj : j < tl.length := by simpa using hi
        have hj' : j < out.length := by simpa using hi'
        simpa using hidx j hj hj'

/-- C3: a candidate whose detail-links fetch returns the failure signal is
annotated with `competitionSeats = 0`, and the batch still succeeds with
every other candidate enriched from its own response — one failed fetch never
fails the run. -/
theorem c3_failed_fetch_isolated {P : Type} (pairs : List (Option JVal × P)) (j : ℕ)
    (hj : j < pairs.length) (hnone : (pairs.get ⟨j, hj⟩).1 = none)
    (hok : ∀ i (hi : i < pairs.length), i ≠ j →
      (annotateE (pairs.get ⟨i, hi⟩).1 (pairs.get ⟨i, hi⟩).2).isOk = true) :
    ∃ out, enrich pairs = .ok out ∧ out.length = pairs.length ∧
      (∀ hj' : j < out.length, out.get ⟨j, hj'⟩ = ((pairs.get ⟨j, hj⟩).2, 0)) ∧
      ∀ i (hi : i < pairs.length) (hi' : i < out.length),
        annotateE (pairs.get ⟨i, hi⟩).1 (pairs.get ⟨i, hi⟩).2 = .ok (out.get ⟨i, hi'⟩) := by
  have hall : ∀ i (hi : i < pairs.length),
      (annotateE (pairs.get ⟨i, hi⟩).1 (pairs.get ⟨i, hi⟩).2).isOk = true := by
    intro i hi
    by_cases hij : i = j
    · subst hij
      rw [hnone, annotateE_none]
      rfl
    · exact hok i hi hij
  obtain ⟨out, hout, hlen, hidx⟩ := enrich_ok_of_forall pairs hall
  refine ⟨out, hout, hlen, ?_, hidx⟩
  intro hj'
  have := hidx j hj hj'
  rw [hnone, annotateE_none] at this
  exact (Except.ok.inj this).symm

theorem c3_witness :
    (enrich [(some (JVal.arr []), true), (none, false)]).isOk = true := by
  obtain ⟨out, hout, -, -, -⟩ :=
    c3_failed_fetch_isolated [(some (JVal.arr []), true), (none, false)] 1 (by simp)
      rfl
      (by
        intro i hi hne
        match i with
        | 0 => rfl
        | 1 => exact absurd rfl hne
        | Nat.succ (Nat.succ k) => exact absurd hi (by simp))
  rw [hout]
  rfl

/-- The accumulator loop preserves nonnegativity when every link's
contribution is nonnegative. -/
lemma sumCaps_nonneg (links : List JVal) : ∀ acc q : ℤ, 0 ≤ acc →
    (∀ link ∈ links, ∀ v, linkContrib link = .ok v → 0 ≤ v) →
    sumCaps acc links = .ok q → 0 ≤ q := by
  induction links with
  | nil =>
    intro acc q hacc _ h
    exact Except.ok.inj h ▸ hacc
  | cons hd tl ih =>
    intro acc q hacc hall h
    cases hc : linkContrib hd with
    | ok v =>
      simp only [sumCaps, hc] at h
      have hv : 0 ≤ v := hall hd (by simp) v hc
      exact ih (acc + v) q (by omega) (fun l hl => hall l (by simp [hl])) h
    | error e =>
      simp only [sumCaps, hc] at h
      exact absurd h (by simp)

/-- C8 (amended): every computed distance is nonnegative for all real
coordinates, and the competition sum is nonnegative whenever every link
record's extracted capacity contribution is nonnegative.  (Over arbitrary
upstream data the competition half of the claim fails: a link with a negative
numeric capacity makes the sum negative, see the counterexample theorem.) -/
theorem c8_candidate_invariants :
    (∀ lat1 lon1 lat2 lon2 : ℝ, 0 ≤ haversine_distance lat1 lon1 lat2 lon2) ∧
    (∀ (response : Option JVal) (q : ℤ),
      (∀ link ∈ linksOf response, ∀ v, linkContrib link = .ok v → 0 ≤ v) →
      computeCompetition response = .ok q → 0 ≤ q) := by
  constructor
  · intro a b c d
    unfold haversine_distance
    exact mul_nonneg (by norm_num)
      (mul_nonneg (by norm_num) (Real.arcsin_nonneg.mpr (Real.sqrt_nonneg _)))
  · intro r q hall h
    rw [computeCompetition_eq_sum] at h
    exact sumCaps_nonneg (linksOf r) 0 q le_rfl hall h

/-- C8, counterexample to the unrestricted claim: a link record carrying a
negative capacity value yields a negative competition sum. -/
theorem c8_cex_negative_capacity :
    computeCompetition (some (JVal.arr [JVal.obj [("capacity", JVal.num (-1))]])) =
      .ok (-1) ∧ (-1 : ℤ) < 0 :=
  ⟨rfl, by decide⟩

theorem c8_witness :
    0 ≤ haversine_distance 10 20 30 40 ∧
    computeCompetition (some (JVal.arr [JVal.obj [("capacity", JVal.num 2)]])) = .ok 2 ∧
    (0 : ℤ) ≤ 2 := by
  refine ⟨c8_candidate_invariants.1 10 20 30 40, rfl, ?_⟩
  refine c8_candidate_invariants.2 (some (JVal.arr [JVal.obj [("capacity", JVal.num 2)]])) 2
    ?_ rfl
  intro link hl v hv
  have hlink : link = JVal.obj [("capacity", JVal.num 2)] := by simpa [linksOf] using hl
  subst hlink
  rw [show linkContrib (JVal.obj [("capacity", JVal.num 2)]) = Except.ok 2 from rfl] at hv
  have := Except.ok.inj hv
  omega

/-- C5: for a cached endpoint, a fetch finding an entry younger than the
600-second TTL returns the cached payload without a network call and leaves
the cache unchanged; a fetch finding an absent or expired entry issues a
network call and, on success, stores the fresh payload under a new timestamp;
hence two fetches of the same endpoint within one TTL window issue exactly
one network call between them. -/
theorem c5_cache_ttl_discipline :
    (∀ (cache : String → Option CacheEntry) (endpoint : String) (e : CacheEntry)
      (now later : ℚ) (net : Option JVal),
      cache endpoint = some e → now - e.timestamp < CACHE_TTL →
      fetch_json cache endpoint true none now later net = ⟨some e.data, cache, false⟩) ∧
    (∀ (cache : String → Option CacheEntry) (endpoint : String) (now later : ℚ) (d : JVal),
      (cache endpoint = none ∨
        ∃ e, cache endpoint = some e ∧ ¬ now - e.timestamp < CACHE_TTL) →
      (fetch_json cache endpoint true none now later (some d)).networkCalled = true ∧
      (fetch_json cache endpoint true none now later (some d)).result = some d ∧
      (fetch_json cache endpoint true none now later (some d)).cache endpoint =
        some ⟨d, later⟩) ∧
    (∀ (cache : String → Option CacheEntry) (endpoint : String) (t₁ t₁' t₂ t₂' : ℚ)
      (d : JVal) (net₂ : Option JVal),
      cache endpoint = none → t₂ - t₁' < CACHE_TTL →
      (fetch_json cache endpoint true none t₁ t₁' (some d)).networkCalled = true ∧
      fetch_json (fetch_json cache endpoint true none t₁ t₁' (some d)).cache
          endpoint true none t₂ t₂' net₂ =
        ⟨some d, (fetch_json cache endpoint true none t₁ t₁' (some d)).cache, false⟩) := by
  have hhit : ∀ (cache : String → Option CacheEntry) (endpoint : String) (e : CacheEntry)
      (now later : ℚ) (net : Option JVal),
      cache endpoint = some e → now - e.timestamp < CACHE_TTL →
      fetch_json cache endpoint true none now later net = ⟨some e.data, cache, false⟩ := by
    intro cache endpoint e now later net hent hfresh
    simp only [fetch_json, Option.getD, if_true, hent, if_pos hfresh]
  have hmiss : ∀ (cache : String → Option CacheEntry) (endpoint : String)
      (now later : ℚ) (d : JVal),
      (cache endpoint = none ∨
        ∃ e, cache endpoint = some e ∧ ¬ now - e.timestamp < CACHE_TTL) →
      (fetch_json cache endpoint true none now later (some d)).networkCalled = true ∧
      (fetch_json cache endpoint true none now later (some d)).result = some d ∧
      (fetch_json cache endpoint true none now later (some d)).cache endpoint =
        some ⟨d, later⟩ := by
    intro cache endpoint now later d hcase
    rcases hcase with hent | ⟨e, hent, hstale⟩
    · simp [fetch_json, Option.getD, hent]
    · simp [fetch_json, Option.getD, hent, hstale]
  refine ⟨hhit, hmiss, ?_⟩
  intro cache endpoint t₁ t₁' t₂ t₂' d net₂ hent hfresh
  obtain ⟨hcall, -, hstored⟩ := hmiss cache endpoint t₁ t₁' d (Or.inl hent)
  exact ⟨hcall, hhit _ endpoint ⟨d, t₁'⟩ t₂ t₂' net₂ hstored hfresh⟩

theorem c5_witness :
    fetch_json (fun k => if k = "/countries" then some ⟨JVal.num 7, 0⟩ else none)
        "/countries" true none 10 11 none =
      ⟨some (JVal.num 7),
        (fun k => if k = "/countries" then some ⟨JVal.num 7, 0⟩ else none), false⟩ ∧
    (fetch_json (fun _ => none) "/airports" true none 0 1 (some (JVal.num 3))).cache
        "/airports" = some ⟨JVal.num 3, 1⟩ :=
  ⟨c5_cache_ttl_discipline.1 _ "/countries" ⟨JVal.num 7, 0⟩ 10 11 none (by simp)
      (by norm_num [CACHE_TTL]),
    (c5_cache_ttl_discipline.2.1 (fun _ => none) "/airports" 0 1 (JVal.num 3)
      (Or.inl rfl)).2.2⟩

/-- C9: for every candidate list and row renderer, the renderer returns the
table text unmodified when it is at most 1900 characters, and otherwise
hard-truncates it to its first 1900 characters followed by the `"..."`
marker; in particular the result never exceeds 1903 characters. -/
theorem c9_truncation_guard {C : Type} (fmtRow : ℕ → C → String) (rows : List C) :
    format_table fmtRow rows =
      (if 1900 < (tableText fmtRow rows).length
        then String.mk ((tableText fmtRow rows).data.take 1900) ++ "..."
        else tableText fmtRow rows) ∧
    ((tableText fmtRow rows).length ≤ 1900 →
      format_table fmtRow rows = tableText fmtRow rows) ∧
    (1900 < (tableText fmtRow rows).length →
      (format_table fmtRow rows).length = 1903) := by
  refine ⟨rfl, ?_, ?_⟩
  · intro hle
    unfold format_table
    rw [if_neg (by omega)]
  · intro hgt
    unfold format_table
    rw [if_pos (by omega)]
    show ((tableText fmtRow rows).data.take 1900 ++ ("...").data).length = 1903
    rw [List.length_append, List.length_take]
    have h3 : ("...").data.length = 3 := rfl
    have : (tableText fmtRow rows).data.length = (tableText fmtRow rows).length := rfl
    omega

lemma length_insertDesc {C K : Type} [LinearOrder K] (key : C → K) (x : C) (l : List C) :
    (insertDesc key x l).length = l.length + 1 := by
  induction l with
  | nil => rfl
  | cons y ys ih =>
    unfold insertDesc
    split
    · simpa using ih
    · rfl

lemma length_sortDesc {C K : Type} [LinearOrder K] (key : C → K) (l : List C) :
    (sortDesc key l).length = l.length := by
  induction l with
  | nil => rfl
  | cons x xs ih =>
    show (insertDesc key x (sortDesc key xs)).length = xs.length + 1
    rw [length_insertDesc, ih]

lemma mem_insertDesc {C K : Type} [LinearOrder K] (key : C → K) (x z : C) (l : List C) :
    z ∈ insertDesc key x l → z = x ∨ z ∈ l := by
  induction l with
  | nil => simp [insertDesc]
  | cons y ys ih =>
    unfold insertDesc
    split
    · intro hz
      rcases List.mem_cons.mp hz with hz | hz
      · exact Or.inr (by simp [hz])
      · rcases ih hz with hz | hz
        · exact Or.inl hz
        · exact Or.inr (by simp [hz])
    · intro hz
      rcases List.mem_cons.mp hz with hz | hz
      · exact Or.inl hz
      · exact Or.inr hz

lemma sorted_insertDesc {C K : Type} [LinearOrder K] (key : C → K) (x : C) (l : List C)
    (hl : l.Pairwise (fun a b => key b ≤ key a)) :
    (insertDesc key x l).Pairwise (fun a b => key b ≤ key a) := by
  induction l with
  | nil => simp [insertDesc]
  | cons y ys ih =>
    rcases List.pairwise_cons.mp hl with ⟨hy, hys⟩
    unfold insertDesc
    split
    · rename_i hlt
      refine List.pairwise_cons.mpr ⟨?_, ih hys⟩
      intro z hz
      rcases mem_insertDesc key x z ys hz with hz | hz
      · exact hz ▸ hlt.le
      · exact hy z hz
    · rename_i hge
      refine List.pairwise_cons.mpr ⟨?_, hl⟩
      intro z hz
      rcases List.mem_cons.mp hz with hz | hz
      · exact hz ▸ not_lt.mp hge
      · exact le_trans (hy z hz) (not_lt.mp hge)

lemma sorted_sortDesc {C K : Type} [LinearOrder K] (key : C → K) (l : List C) :
    (sortDesc key l).Pairwise (fun a b => key b ≤ key a) := by
  induction l with
  | nil => simp [sortDesc]
  | cons x xs ih => exact sorted_insertDesc key x (sortDesc key xs) ih

lemma filter_insertDesc_ne {C K : Type} [LinearOrder K] (key : C → K) (x : C) (k : K)
    (hne : key x ≠ k) (l : List C) :
    (insertDesc key x l).filter (fun z => decide (key z = k)) =
      l.filter (fun z => decide (key z = k)) := by
  induction l with
  | nil => simp [insertDesc, hne]
  | cons y ys ih =>
    unfold insertDesc
    split
    · rw [List.filter_cons, List.filter_cons, ih]
    · rw [List.filter_cons (x := x), decide_eq_false hne]
      simp

lemma filter_insertDesc_eq {C K : Type} [LinearOrder K] (key : C → K) (x : C) (l : List C) :
    (insertDesc key x l).filter (fun z => decide (key z = key x)) =
      x :: l.filter (fun z => decide (key z = key x)) := by
  induction l with
  | nil => simp [insertDesc]
  | cons y ys ih =>
    unfold insertDesc
    split
    · rename_i hlt
      have hne : key y ≠ key x := ne_of_gt hlt
      rw [List.filter_cons, List.filter_cons, decide_eq_false hne, ih]
      simp [decide_eq_false hne]
    · rw [List.filter_cons (x := x)]
      simp

/-- Stability of the descending sort: for every key value, the elements
carrying that key appear in the output in their input order. -/
lemma sortDesc_stable {C K : Type} [LinearOrder K] (key : C → K) (l : List C) (k : K) :
    (sortDesc key l).filter (fun z => decide (key z = k)) =
      l.filter (fun z => decide (key z = k)) := by
  induction l with
  | nil => rfl
  | cons x xs ih =>
    show (insertDesc key x (sortDesc key xs)).filter (fun z => decide (key z = k)) = _
    by_cases hk : key x = k
    · subst hk
      rw [filter_insertDesc_eq, ih, List.filter_cons]
      simp
    · rw [filter_insertDesc_ne key x k hk, ih, List.filter_cons, decide_eq_false hk]
      simp

/-- C2: with at least 16 validly scored candidates, the ranking step keeps
exactly 15 of them, in descending score order, the underlying sort is stable
(equal-score candidates stay in input order), and the rendered table carries
exactly 15 data rows after header and separator. -/
theorem c2_rank_top15 {C K : Type} [LinearOrder K] (key : C → K)
    (fmtRow : ℕ → C → String) (l : List C) (h16 : 16 ≤ l.length) :
    (rankTop key l).length = 15 ∧
    (rankTop key l).Pairwise (fun a b => key b ≤ key a) ∧
    (∀ k, (sortDesc key l).filter (fun z => decide (key z = k)) =
      l.filter (fun z => decide (key z = k))) ∧
    (tableLines fmtRow (rankTop key l)).length = 2 + 15 := by
  have hlen : (rankTop key l).length = 15 := by
    unfold rankTop
    rw [List.length_take, length_sortDesc]
    omega
  refine ⟨hlen, ?_, sortDesc_stable key l, ?_⟩
  · exact (sorted_sortDesc key l).sublist (List.take_sublist 15 (sortDesc key l))
  · unfold tableLines
    simp [List.enum_length, hlen]

theorem c2_witness :
    (rankTop id (List.range 16)).length = 15 ∧
    (rankTop id (List.range 16)).Pairwise (fun a b : ℕ => id b ≤ id a) ∧
    (tableLines (fun _ _ => "") (rankTop id (List.range 16))).length = 2 + 15 :=
  ⟨(c2_rank_top15 id (fun _ _ => "") (List.range 16) (by simp)).1,
    (c2_rank_top15 id (fun _ _ => "") (List.range 16) (by simp)).2.1,
    (c2_rank_top15 id (fun _ _ => "") (List.range 16) (by simp)).2.2.2⟩

/-- C4: starting from any number `n` of enrichment tasks, every state
reachable under the semaphore-gated interleaving has at most 20 detail
fetches outstanding. -/
theorem c4_at_most_twenty_in_flight (n : ℕ) (s : Multiset TaskPhase)
    (h : Relation.ReflTransGen SemStep (Multiset.replicate n TaskPhase.idle) s) :
    inFlight s ≤ 20 := by
  induction h with
  | refl => simp [inFlight, Multiset.count_replicate]
  | tail _ step ih =>
    cases step with
    | acquire t hlt =>
      have h1 : inFlight (TaskPhase.idle ::ₘ t) = inFlight t :=
        Multiset.count_cons_of_ne (by decide) t
      have h2 : inFlight (TaskPhase.fetching ::ₘ t) = inFlight t + 1 :=
        Multiset.count_cons_self TaskPhase.fetching t
      omega
    | release t =>
      have h1 : inFlight (TaskPhase.fetching ::ₘ t) = inFlight t + 1 :=
        Multiset.count_cons_self TaskPhase.fetching t
      have h2 : inFlight (TaskPhase.done ::ₘ t) = inFlight t :=
        Multiset.count_cons_of_ne (by decide) t
      omega

theorem c4_witness :
    inFlight (TaskPhase.fetching ::ₘ Multiset.replicate 2 TaskPhase.idle) ≤ 20 :=
  c4_at_most_twenty_in_flight 3 _
    (by
      rw [show (3 : ℕ) = 2 + 1 from rfl, Multiset.replicate_succ]
      exact Relation.ReflTransGen.single
        (SemStep.acquire (Multiset.replicate 2 TaskPhase.idle)
          (by simp [inFlight, Multiset.count_replicate])))

end AirlineBot
